import Mathlib

set_option maxHeartbeats 1000000

namespace Wiql

/-- Work-item field types. This is the external `FieldType` enumeration from the
TFS WorkItemTracking contracts that the source imports. The first ten
constructors are the types the checker's `switch` handles; the remaining four
are the other members of the external enumeration, which reach the checker's
final `throw`. -/
inductive FieldType where
| String
| Integer
| DateTime
| PlainText
| Html
| TreePath
| History
| Double
| Guid
| Boolean
| Identity
| PicklistString
| PicklistInteger
| PicklistDouble
deriving DecidableEq, Repr

/-- Enum-member names of `FieldType`, as produced by the reverse enum mapping
`FieldType[t]` used in `checkRhsField`'s message. -/
def fieldTypeName : FieldType → String
| .String => "String"
| .Integer => "Integer"
| .DateTime => "DateTime"
| .PlainText => "PlainText"
| .Html => "Html"
| .TreePath => "TreePath"
| .History => "History"
| .Double => "Double"
| .Guid => "Guid"
| .Boolean => "Boolean"
| .Identity => "Identity"
| .PicklistString => "PicklistString"
| .PicklistInteger => "PicklistInteger"
| .PicklistDouble => "PicklistDouble"

/-- Identities of the symbol classes of `wiqlSymbols` that the checker and the
completion filter test with `instanceof`: comparison operators, literal token
classes, and the token classes used by the completion code. The source checks
membership by runtime class identity; the class hierarchy among these symbols
is flat, so class identity is constructor equality here. -/
inductive Sym where
| Equals
| NotEquals
| GreaterThan
| LessThan
| GreaterOrEq
| LessOrEq
| InGroup
| Ever
| Contains
| ContainsWords
| Under
| In
| Number
| String
| True
| False
| Variable
| Field
| Group
deriving DecidableEq, Repr

/-- Modelled from the spec: `getSymbolName` lives in `wiqlSymbols`, which is not
among the given sources. The spec quotes the diagnostic "Expected value of type
NUMBER" and the source itself writes "Expected value of type BOOLEAN", so the
symbol name is the class name in upper case. -/
def getSymbolName : Sym → String
| .Equals => "EQUALS"
| .NotEquals => "NOTEQUALS"
| .GreaterThan => "GREATERTHAN"
| .LessThan => "LESSTHAN"
| .GreaterOrEq => "GREATEROREQ"
| .LessOrEq => "LESSOREQ"
| .InGroup => "INGROUP"
| .Ever => "EVER"
| .Contains => "CONTAINS"
| .ContainsWords => "CONTAINSWORDS"
| .Under => "UNDER"
| .In => "IN"
| .Number => "NUMBER"
| .String => "STRING"
| .True => "TRUE"
| .False => "FALSE"
| .Variable => "VARIABLE"
| .Field => "FIELD"
| .Group => "GROUP"

/-- A work-item field descriptor as supplied by the field metadata service:
display name, reference name and declared type. -/
structure WorkItemField where
  name : String
  referenceName : String
  type : FieldType
deriving DecidableEq, Repr

/-- The `IComparisonType` record of the source: a field's declared type together
with the operator classes allowed against a literal, a field and a group
right-hand side. -/
structure IComparisonType where
  fieldType : FieldType
  literal : List Sym
  field : List Sym
  group : List Sym
deriving DecidableEq, Repr

/-- The right-hand-side kinds distinguished by `checkComparisonOperator`. -/
inductive RhsKind where
| literal
| field
deriving DecidableEq, Repr

/-- The string the source interpolates for an `RhsKind` in the
"There is no valid operation" message. -/
def rhsKindName : RhsKind → String
| .literal => "literal"
| .field => "field"

/-- Selects the operator list of an entry for a right-hand-side kind, as the
indexing `fieldLookup[...][rhsType]` does. -/
def opsFor (entry : IComparisonType) : RhsKind → List Sym
| .literal => entry.literal
| .field => entry.field

/-- The `compTypes` table populated by the `addCompTypes` calls of the source:
the valid comparisons per field type. Types outside the registered ten have no
entry (the JavaScript object yields `undefined`), modelled as `none`. -/
def compTypes (t : FieldType) : Option IComparisonType :=
  match t with
  | .Html | .PlainText | .History =>
    some ⟨t, [Sym.Contains, Sym.ContainsWords], [], []⟩
  | .Double | .Integer | .DateTime | .Guid =>
    some ⟨t,
      [Sym.Equals, Sym.NotEquals, Sym.GreaterThan, Sym.LessThan, Sym.GreaterOrEq, Sym.LessOrEq, Sym.Ever],
      [Sym.Equals, Sym.NotEquals, Sym.GreaterThan, Sym.LessThan, Sym.GreaterOrEq, Sym.LessOrEq],
      [Sym.In]⟩
  | .String =>
    some ⟨t,
      [Sym.Equals, Sym.NotEquals, Sym.GreaterThan, Sym.LessThan, Sym.GreaterOrEq, Sym.LessOrEq, Sym.Ever, Sym.Contains, Sym.InGroup],
      [Sym.Equals, Sym.NotEquals, Sym.GreaterThan, Sym.LessThan, Sym.GreaterOrEq, Sym.LessOrEq],
      [Sym.In]⟩
  | .Boolean =>
    some ⟨t, [Sym.Equals, Sym.NotEquals, Sym.Ever], [Sym.Equals, Sym.NotEquals], []⟩
  | .TreePath =>
    some ⟨t, [Sym.Equals, Sym.NotEquals, Sym.Under], [], [Sym.In]⟩
  | _ => none

/-- The `toLocaleLowerCase` normalisation applied to every lookup key and
variable name: lower-casing character by character. -/
def toLocaleLowerCase (s : String) : String :=
  ⟨s.data.map Char.toLower⟩

/-- The field lookup of the source: a string-keyed JavaScript object whose
stored value may itself be `undefined` (when `compTypes` had no entry for the
field's type), modelled as an association list where the most recent assignment
is found first. -/
def FieldLookup : Type := List (String × Option IComparisonType)

/-- Property read `lookup[k]` together with the `k in lookup` test: `none` when
the key is absent, `some v` when the key is present and stores `v`. -/
def lookupGet (m : FieldLookup) (k : String) : Option (Option IComparisonType) :=
  match m with
  | [] => none
  | p :: rest => if p.1 = k then some p.2 else lookupGet rest k

/-- Property assignment `lookup[k] = v`; a later assignment shadows an earlier
one for the same key. -/
def lookupSet (m : FieldLookup) (k : String) (v : Option IComparisonType) : FieldLookup :=
  (k, v) :: m

/-- The hard-coded entry `getFieldComparisonLookup` assigns for the
"System.Links.LinkType" field. -/
def linkTypeEntry : IComparisonType :=
  ⟨FieldType.String, [Sym.Equals, Sym.NotEquals], [], []⟩

/-- One iteration of `getFieldComparisonLookup`'s loop: assign the entry to the
reference-name key and then to the display-name key (the source's chained
assignment writes the rightmost key first), special-casing the link-type
sentinel. -/
def addFieldToLookup (fieldLookup : FieldLookup) (field : WorkItemField) : FieldLookup :=
  if field.referenceName = "System.Links.LinkType" then
    lookupSet (lookupSet fieldLookup (toLocaleLowerCase field.referenceName) (some linkTypeEntry))
      (toLocaleLowerCase field.name) (some linkTypeEntry)
  else
    lookupSet (lookupSet fieldLookup (toLocaleLowerCase field.referenceName) (compTypes field.type))
      (toLocaleLowerCase field.name) (compTypes field.type)

/-- The `getFieldComparisonLookup` builder of the source. -/
def getFieldComparisonLookup (fields : List WorkItemField) : FieldLookup :=
  fields.foldl addFieldToLookup []

/-- A `Symbols.Field` node: the identifier's text and the position used when a
decoration is attached to the identifier. -/
structure Field where
  text : String
  span : Nat
deriving DecidableEq, Repr

/-- An operator node as the checker sees it: the class of its condition token
and the token's position. -/
structure OpToken where
  kind : Sym
  span : Nat
deriving DecidableEq, Repr

/-- The node wrapped by a `Symbols.Value`: a field reference, a variable
reference, or one of the literal token classes, each with its position. -/
inductive ValueAtom where
| Field (text : String) (span : Nat)
| Variable (text : String) (span : Nat)
| String (span : Nat)
| Number (span : Nat)
| True (span : Nat)
| False (span : Nat)
deriving DecidableEq, Repr

/-- Position of the wrapped node, used as the decoration target. -/
def atomSpan : ValueAtom → Nat
| .Field _ s => s
| .Variable _ s => s
| .String s => s
| .Number s => s
| .True s => s
| .False s => s

/-- The `instanceof` test of a wrapped value node against a symbol class. -/
def atomInstanceOf : ValueAtom → Sym → Bool
| .Field _ _, .Field => true
| .Variable _ _, .Variable => true
| .String _, .String => true
| .Number _, .Number => true
| .True _, .True => true
| .False _, .False => true
| _, _ => false

/-- A `Symbols.Value` node. -/
structure Value where
  value : ValueAtom
deriving DecidableEq, Repr

/-- A `Symbols.ValueList`: a value followed by an optional rest of the list. -/
inductive ValueList where
| mk (value : Value) (restOfList : Option ValueList)

/-- A condition node as the validator consumes it: the optional field, the
optional scalar comparison operator and value, and the optional group operator
and value list. -/
structure Condition where
  field : Option Field
  conditionalOperator : Option OpToken
  value : Option Value
  valueList : Option ValueList
  inOperator : Option OpToken

/-- A positioned diagnostic, the read model produced by `toDecoration`. -/
structure Decoration where
  span : Nat
  message : String
deriving DecidableEq, Repr

/-- Builds a diagnostic from a target position and a message, as
`toDecoration` does. -/
def toDecoration (span : Nat) (message : String) : Decoration :=
  ⟨span, message⟩

/-- The static `definedVariables` table: variable name (with its sentinel
character) to declared type, in declaration order. -/
def VarTable : Type := List (String × FieldType)

/-- Property read `definedVariables[name]`: `none` models `undefined`. -/
def lookupVar (vars : VarTable) (name : String) : Option FieldType :=
  match vars with
  | [] => none
  | p :: rest => if p.1 = name then some p.2 else lookupVar rest name

/-- The `mapType` method: integer and real field types map to the numeric
literal class, every other field type to the string literal class. -/
def mapType (t : FieldType) : Sym :=
  match t with
  | .Integer | .Double => Sym.Number
  | _ => Sym.String

/-- Application of `mapType` to the possibly-undefined result of a
`definedVariables` read: the JavaScript `switch` on `undefined` falls through
to the `default` branch, so an absent variable maps to the string class. -/
def mapTypeOpt : Option FieldType → Sym
| some t => mapType t
| none => Sym.String

/-- The `checkComparisonOperator` method. `none` models the runtime error the
source hits when the field's key is absent from the lookup or stores
`undefined` (the indexing `fieldLookup[...][rhsType]` would throw). -/
def checkComparisonOperator (fieldLookup : FieldLookup) (comp : OpToken) (field : Field)
    (rhsType : RhsKind) : Option (List Decoration) :=
  match lookupGet fieldLookup (toLocaleLowerCase field.text) with
  | some (some entry) =>
    let validOps := opsFor entry rhsType
    if validOps.length = 0 then
      some [toDecoration comp.span
        ("There is no valid operation for " ++ field.text ++ " and " ++ rhsKindName rhsType)]
    else if (validOps.filter (fun op => comp.kind == op)).length = 0 then
      some [toDecoration comp.span
        ("Valid comparisons are " ++ String.intercalate ", " (validOps.map getSymbolName))]
    else
      some []
  | _ => none

/-- The `checkAllowsGroup` method; `none` models the same indexing error. -/
def checkAllowsGroup (fieldLookup : FieldLookup) (comp : OpToken) (field : Field) :
    Option (List Decoration) :=
  match lookupGet fieldLookup (toLocaleLowerCase field.text) with
  | some (some entry) =>
    let validOps := entry.group
    if validOps.length = 0 then
      some [toDecoration comp.span (field.text ++ " does not support group comparisons")]
    else if (validOps.filter (fun op => comp.kind == op)).length = 0 then
      some [toDecoration comp.span
        ("Valid comparisons are " ++ String.intercalate ", " (validOps.map getSymbolName))]
    else
      some []
  | _ => none

/-- The `checkRhsValue` method. `none` models the `throw` for a field type
outside the handled ten; a value wrapping a variable reference is checked by
mapping the variable's declared type instead of the value's own class. -/
def checkRhsValue (vars : VarTable) (value : Value) (expectedType : FieldType) :
    Option (List Decoration) :=
  let symbolType := mapType expectedType
  let error := [toDecoration (atomSpan value.value)
    ("Expected value of type " ++ getSymbolName symbolType)]
  match value.value with
  | ValueAtom.Variable text _ =>
    some (if mapTypeOpt (lookupVar vars (toLocaleLowerCase text)) = symbolType then [] else error)
  | atom =>
    match expectedType with
    | .String | .Integer | .DateTime | .PlainText | .Html | .TreePath | .History | .Double | .Guid =>
      some (if atomInstanceOf atom symbolType then [] else error)
    | .Boolean =>
      some (if atomInstanceOf atom Sym.True || atomInstanceOf atom Sym.False then []
        else [toDecoration (atomSpan atom) "Expected value of type BOOLEAN"])
    | _ => none

/-- The `checkRhsGroup` method: walk the value list in order; a field reference
in the list is illegal, every other element goes through `checkRhsValue`. -/
def checkRhsGroup (vars : VarTable) : ValueList → FieldType → Option (List Decoration)
| ValueList.mk v rest, expectedType =>
  let head : Option (List Decoration) :=
    match v.value with
    | ValueAtom.Field _ s => some [toDecoration s "Values in list must be literals"]
    | _ => checkRhsValue vars v expectedType
  match head, rest with
  | none, _ => none
  | some hd, none => some hd
  | some hd, some r =>
    match checkRhsGroup vars r expectedType with
    | none => none
    | some tl => some (hd ++ tl)

/-- The `checkRhsField` method: when the referenced field is known, its declared
type must equal the expected type. The conjunction's second read throws when
the key stores `undefined`, modelled as `none`. -/
def checkRhsField (fieldLookup : FieldLookup) (targetField : Field) (expectedType : FieldType) :
    Option (List Decoration) :=
  match lookupGet fieldLookup (toLocaleLowerCase targetField.text) with
  | none => some []
  | some none => none
  | some (some entry) =>
    some (if entry.fieldType ≠ expectedType then
      [toDecoration targetField.span ("Expected field of type " ++ fieldTypeName expectedType)]
    else [])

/-- The `getRhsType` method: "field" when the value wraps a field reference,
else "literal". -/
def getRhsType (value : Value) : RhsKind :=
  match value.value with
  | ValueAtom.Field _ _ => RhsKind.field
  | _ => RhsKind.literal

/-- The body of `check`'s loop for a single condition: its contribution to the
diagnostic sequence, `some []` when the condition is skipped, `none` when the
source would throw. -/
def checkCondition (vars : VarTable) (fieldLookup : FieldLookup) (condition : Condition) :
    Option (List Decoration) :=
  match condition.field with
  | none => some []
  | some field =>
    match lookupGet fieldLookup (toLocaleLowerCase field.text) with
    | none => some []
    | some none => none
    | some (some entry) =>
      let type := entry.fieldType
      match condition.conditionalOperator, condition.value with
      | some comp, some value =>
        match checkComparisonOperator fieldLookup comp field (getRhsType value) with
        | none => none
        | some compErrors =>
          if 0 < compErrors.length then
            some compErrors
          else
            match value.value with
            | ValueAtom.Field text span => checkRhsField fieldLookup ⟨text, span⟩ type
            | _ => checkRhsValue vars value type
      | _, _ =>
        match condition.valueList, condition.inOperator with
        | some valueList, some inOp =>
          match checkRhsGroup vars valueList type, checkAllowsGroup fieldLookup inOp field with
          | some gds, some ads => some (gds ++ ads)
          | _, _ => none
        | _, _ => some []

/-- The `check` method over the conditions collected from the parse result
(conditional expressions followed by link conditions), concatenating each
condition's diagnostics in traversal order. -/
def check (vars : VarTable) (fieldLookup : FieldLookup) : List Condition → Option (List Decoration)
| [] => some []
| condition :: rest =>
  match checkCondition vars fieldLookup condition, check vars fieldLookup rest with
  | some ds, some res => some (ds ++ res)
  | _, _ => none

/-- A completion item: the displayed label and, when the suggestion replaces the
token under the cursor, the text to insert (absent in plain suggestion mode,
where only the label is set). -/
structure CompletionItem where
  label : String
  insertText : Option String
deriving DecidableEq, Repr

/-- A token as the completion context exposes it: its symbol class and its end
column. -/
structure PrevToken where
  kind : Sym
  endColumn : Int
deriving DecidableEq, Repr

/-- The parser state at the cursor: the names of the grammar symbols that may
come next. -/
structure ParseNext where
  expectedTokens : List String
deriving DecidableEq, Repr

/-- The completion context consumed by the variable-completion filter: the
parser's expectation at the cursor, the token right before the cursor, whether
the cursor is inside a condition's comparison, and the field type relevant
there. This is the external `ICompletionContext` interface restricted to the
fields the source reads. -/
structure CompletionContext where
  parseNext : ParseNext
  prevToken : Option PrevToken
  isInCondition : Bool
  fieldType : Option FieldType

/-- A cursor position; only the column is read. -/
structure Position where
  column : Int
deriving DecidableEq, Repr

/-- The `instanceof` test on the optional previous token: `null` is an instance
of nothing. -/
def prevTokenInstanceOf (token : Option PrevToken) (s : Sym) : Bool :=
  match token with
  | some t => t.kind == s
  | none => false

/-- The `getStandardVariableSuggestions` function: one suggestion per defined
variable, filtered to the given type unless the type is `null`. -/
def getStandardVariableSuggestions (vars : VarTable) (type : Option FieldType) :
    List CompletionItem :=
  (vars.filter (fun p =>
    match type with
    | none => true
    | some t => p.2 == t)).map (fun p => ⟨p.1, none⟩)

/-- The `includeVariables` function: append the standard variable suggestions
when the parser expects a variable token and the previous token is not a group,
filtering by the context's field type only inside a condition. The source
mutates its `suggestions` argument; the result list is returned here. -/
def includeVariables (vars : VarTable) (ctx : CompletionContext)
    (suggestions : List CompletionItem) : List CompletionItem :=
  if (ctx.parseNext.expectedTokens.contains (getSymbolName Sym.Variable)
      && !prevTokenInstanceOf ctx.prevToken Sym.Group) then
    suggestions ++ getStandardVariableSuggestions vars
      (if ctx.isInCondition then ctx.fieldType else none)
  else
    suggestions

/-- Removal of the first occurrence of a character from a character list, the
behaviour of the JavaScript `replace` with a plain one-character pattern. -/
def removeFirstChar (c : Char) : List Char → List Char
| [] => []
| x :: xs => if x = c then xs else x :: removeFirstChar c xs

/-- The sentinel-stripping transform of the source, a JavaScript `replace` with
the at-sign as pattern and the empty string as replacement: only the first
occurrence is replaced. -/
def stripVariableSentinel (s : String) : String :=
  ⟨removeFirstChar '@' s.data⟩

/-- The `getCurrentVariableSuggestions` function: when the token before the
cursor is a variable token and the cursor column sits exactly at its end,
return the standard suggestions with the sentinel stripped from the insertion
text; otherwise return the explicit `null` signal. -/
def getCurrentVariableSuggestions (vars : VarTable) (ctx : CompletionContext)
    (position : Position) : Option (List CompletionItem) :=
  match ctx.prevToken with
  | some t =>
    if t.kind == Sym.Variable && position.column - 1 == t.endColumn then
      some ((getStandardVariableSuggestions vars
          (if ctx.isInCondition then ctx.fieldType else none)).map
        (fun s => ⟨s.label, some (stripVariableSentinel s.label)⟩))
    else
      none
  | none => none

/-- C3: for a scalar condition whose operator check passed and whose right-hand
side is a literal (non-variable) value, the value-type check follows the
type-mapping rule: Integer and Double expect a numeric literal and otherwise
emit the numeric-expected diagnostic; Boolean expects exactly one of the two
boolean literal kinds and otherwise emits the distinct BOOLEAN diagnostic;
every other handled declared type expects a string-shaped literal and
otherwise emits the string-expected diagnostic. -/
theorem C3_literal_type_mapping (vars : VarTable) (v : Value) (t : FieldType)
    (hv : atomInstanceOf v.value Sym.Variable = false) :
    ((t = FieldType.Integer ∨ t = FieldType.Double) →
      checkRhsValue vars v t =
        some (if atomInstanceOf v.value Sym.Number then []
          else [⟨atomSpan v.value, "Expected value of type NUMBER"⟩])) ∧
    (t = FieldType.Boolean →
      checkRhsValue vars v t =
        some (if atomInstanceOf v.value Sym.True || atomInstanceOf v.value Sym.False then []
          else [⟨atomSpan v.value, "Expected value of type BOOLEAN"⟩])) ∧
    ((t = FieldType.String ∨ t = FieldType.DateTime ∨ t = FieldType.PlainText ∨
      t = FieldType.Html ∨ t = FieldType.TreePath ∨ t = FieldType.History ∨
      t = FieldType.Guid) →
      checkRhsValue vars v t =
        some (if atomInstanceOf v.value Sym.String then []
          else [⟨atomSpan v.value, "Expected value of type STRING"⟩])) := by
  obtain ⟨atom⟩ := v
  refine ⟨?_, ?_, ?_⟩
  · rintro (rfl | rfl) <;> cases atom <;>
      simp_all [checkRhsValue, atomInstanceOf, mapType, getSymbolName, atomSpan, toDecoration]
  · rintro rfl
    cases atom <;>
      simp_all [checkRhsValue, atomInstanceOf, mapType, getSymbolName, atomSpan, toDecoration]
  · rintro (rfl | rfl | rfl | rfl | rfl | rfl | rfl) <;> cases atom <;>
      simp_all [checkRhsValue, atomInstanceOf, mapType, getSymbolName, atomSpan, toDecoration]

/-- C3 witness: concrete instances of the three arms of the type-mapping rule. -/
theorem C3_witness :
    checkRhsValue [] ⟨ValueAtom.String 4⟩ FieldType.Boolean =
      some [⟨4, "Expected value of type BOOLEAN"⟩] ∧
    checkRhsValue [] ⟨ValueAtom.String 5⟩ FieldType.Integer =
      some [⟨5, "Expected value of type NUMBER"⟩] ∧
    checkRhsValue [] ⟨ValueAtom.String 6⟩ FieldType.Guid = some [] := by
  refine ⟨?_, ?_, ?_⟩
  · exact (C3_literal_type_mapping [] ⟨ValueAtom.String 4⟩ FieldType.Boolean rfl).2.1 rfl
  · exact (C3_literal_type_mapping [] ⟨ValueAtom.String 5⟩ FieldType.Integer rfl).1 (Or.inl rfl)
  · exact (C3_literal_type_mapping [] ⟨ValueAtom.String 6⟩ FieldType.Guid rfl).2.2
      (Or.inr (Or.inr (Or.inr (Or.inr (Or.inr (Or.inr rfl))))))

/-- C8: when the literal-value type check receives a non-variable value and an
expected field type outside the ten handled ones, it raises (the source's
`throw`) instead of returning a diagnostic list. -/
theorem C8_unmapped_type_raises (vars : VarTable) (v : Value) (t : FieldType)
    (hv : atomInstanceOf v.value Sym.Variable = false)
    (ht : t ∉ [FieldType.String, FieldType.Integer, FieldType.DateTime, FieldType.PlainText,
      FieldType.Html, FieldType.TreePath, FieldType.History, FieldType.Double, FieldType.Guid,
      FieldType.Boolean]) :
    checkRhsValue vars v t = none := by
  obtain ⟨atom⟩ := v
  cases atom <;> cases t <;> simp_all [checkRhsValue, atomInstanceOf]

/-- C8 witness: a string literal checked against the Identity field type hits
the raise. -/
theorem C8_witness : checkRhsValue [] ⟨ValueAtom.String 0⟩ FieldType.Identity = none :=
  C8_unmapped_type_raises [] ⟨ValueAtom.String 0⟩ FieldType.Identity rfl (by decide)

/-- C9: a condition without a field reference, or whose field's lowercased text
is absent from the field lookup, contributes no diagnostics, and validation of
the remaining conditions proceeds unchanged. -/
theorem C9_unknown_field_skipped (vars : VarTable) (fieldLookup : FieldLookup)
    (cond : Condition) (rest : List Condition)
    (h : cond.field = none ∨
      ∃ f, cond.field = some f ∧ lookupGet fieldLookup (toLocaleLowerCase f.text) = none) :
    check vars fieldLookup (cond :: rest) = check vars fieldLookup rest := by
  have hc : checkCondition vars fieldLookup cond = some [] := by
    rcases h with h | ⟨f, hf, hl⟩
    · simp [checkCondition, h]
    · simp [checkCondition, hf, hl]
  cases hrest : check vars fieldLookup rest <;> simp [check, hc, hrest]

/-- C9 witness: a condition with no field reference and one naming an unknown
field are both skipped. -/
theorem C9_witness :
    check [] (getFieldComparisonLookup [⟨"a", "r", FieldType.Integer⟩])
      [⟨none, none, none, none, none⟩] =
      check [] (getFieldComparisonLookup [⟨"a", "r", FieldType.Integer⟩]) [] ∧
    check [] (getFieldComparisonLookup [⟨"a", "r", FieldType.Integer⟩])
      [⟨some ⟨"zzz", 0⟩, none, none, none, none⟩] =
      check [] (getFieldComparisonLookup [⟨"a", "r", FieldType.Integer⟩]) [] := by
  constructor
  · exact C9_unknown_field_skipped [] (getFieldComparisonLookup [⟨"a", "r", FieldType.Integer⟩])
      ⟨none, none, none, none, none⟩ [] (Or.inl rfl)
  · exact C9_unknown_field_skipped [] (getFieldComparisonLookup [⟨"a", "r", FieldType.Integer⟩])
      ⟨some ⟨"zzz", 0⟩, none, none, none, none⟩ [] (Or.inr ⟨⟨"zzz", 0⟩, rfl, by decide⟩)

/-- C10: a value wrapping a variable reference whose lowercased name is absent
from the defined-variable table does not raise: the unresolved variable maps to
the string shape, so the check returns no diagnostic exactly when the expected
field type also maps to the string shape, and returns the value-type diagnostic
when the expected type is Integer or Double. -/
theorem C10_unresolved_variable (vars : VarTable) (name : String) (s : Nat) (t : FieldType)
    (h : lookupVar vars (toLocaleLowerCase name) = none) :
    checkRhsValue vars ⟨ValueAtom.Variable name s⟩ t =
      some (if t = FieldType.Integer ∨ t = FieldType.Double then
        [⟨s, "Expected value of type NUMBER"⟩] else []) := by
  cases t <;>
    simp [checkRhsValue, h, mapTypeOpt, mapType, getSymbolName, atomSpan, toDecoration]

/-- C10 witness: an undefined variable against an Integer field yields the
numeric-expected diagnostic, and against a String field yields none. -/
theorem C10_witness :
    checkRhsValue [("@today", FieldType.DateTime)] ⟨ValueAtom.Variable "@Never" 7⟩
      FieldType.Integer = some [⟨7, "Expected value of type NUMBER"⟩] ∧
    checkRhsValue [("@today", FieldType.DateTime)] ⟨ValueAtom.Variable "@Never" 8⟩
      FieldType.String = some [] := by
  constructor
  · have h := C10_unresolved_variable [("@today", FieldType.DateTime)] "@Never" 7
      FieldType.Integer (by decide)
    simpa using h
  · have h := C10_unresolved_variable [("@today", FieldType.DateTime)] "@Never" 8
      FieldType.String (by decide)
    simpa using h

/-- C4: when the operator check of a scalar condition emits diagnostics, the
condition contributes exactly those diagnostics — no right-hand-side diagnostic
is added for it — while the remaining conditions are still validated and their
diagnostics follow. -/
theorem C4_operator_failure_short_circuits (vars : VarTable) (fieldLookup : FieldLookup)
    (cond : Condition) (rest : List Condition) (f : Field) (entry : IComparisonType)
    (comp : OpToken) (value : Value) (ce res : List Decoration)
    (hf : cond.field = some f)
    (hl : lookupGet fieldLookup (toLocaleLowerCase f.text) = some (some entry))
    (hop : cond.conditionalOperator = some comp)
    (hval : cond.value = some value)
    (hce : checkComparisonOperator fieldLookup comp f (getRhsType value) = some ce)
    (hne : ce ≠ [])
    (hrest : check vars fieldLookup rest = some res) :
    check vars fieldLookup (cond :: rest) = some (ce ++ res) := by
  have hc : checkCondition vars fieldLookup cond = some ce := by
    simp only [checkCondition, hf, hl, hop, hval, hce]
    rw [if_pos (List.length_pos.mpr hne)]
  simp [check, hc, hrest]

/-- C4 witness: an invalid Contains on a Boolean field contributes only the
operator diagnostic, and a later condition's value diagnostic still follows. -/
theorem C4_witness :
    check [] (getFieldComparisonLookup [⟨"b", "r", FieldType.Boolean⟩])
      [⟨some ⟨"b", 0⟩, some ⟨Sym.Contains, 1⟩, some ⟨ValueAtom.String 2⟩, none, none⟩,
       ⟨some ⟨"b", 3⟩, some ⟨Sym.Equals, 4⟩, some ⟨ValueAtom.String 5⟩, none, none⟩] =
      some ([⟨1, "Valid comparisons are EQUALS, NOTEQUALS, EVER"⟩] ++
        [⟨5, "Expected value of type BOOLEAN"⟩]) := by
  exact C4_operator_failure_short_circuits []
    (getFieldComparisonLookup [⟨"b", "r", FieldType.Boolean⟩])
    ⟨some ⟨"b", 0⟩, some ⟨Sym.Contains, 1⟩, some ⟨ValueAtom.String 2⟩, none, none⟩
    [⟨some ⟨"b", 3⟩, some ⟨Sym.Equals, 4⟩, some ⟨ValueAtom.String 5⟩, none, none⟩]
    ⟨"b", 0⟩ ⟨FieldType.Boolean, [Sym.Equals, Sym.NotEquals, Sym.Ever],
      [Sym.Equals, Sym.NotEquals], []⟩
    ⟨Sym.Contains, 1⟩ ⟨ValueAtom.String 2⟩
    [⟨1, "Valid comparisons are EQUALS, NOTEQUALS, EVER"⟩]
    [⟨5, "Expected value of type BOOLEAN"⟩]
    rfl (by decide) rfl rfl (by decide) (by decide) (by decide)

/-- C2 counterexample: a group condition on a Boolean field whose value list
holds a field reference produces the list-element diagnostic before the
group-operator diagnostic, so the group-operator diagnostic does not appear
first as the claim states. -/
theorem C2_counterexample :
    check [] (getFieldComparisonLookup [⟨"b", "r", FieldType.Boolean⟩])
      [⟨some ⟨"b", 0⟩, none, none, some (ValueList.mk ⟨ValueAtom.Field "x" 1⟩ none),
        some ⟨Sym.In, 2⟩⟩] =
      some [⟨1, "Values in list must be literals"⟩,
        ⟨2, "b does not support group comparisons"⟩] ∧
    check [] (getFieldComparisonLookup [⟨"b", "r", FieldType.Boolean⟩])
      [⟨some ⟨"b", 0⟩, none, none, some (ValueList.mk ⟨ValueAtom.Field "x" 1⟩ none),
        some ⟨Sym.In, 2⟩⟩] ≠
      some [⟨2, "b does not support group comparisons"⟩,
        ⟨1, "Values in list must be literals"⟩] := by
  constructor
  · decide
  · decide

/-- C2 amended: for a group-form condition on a field present in the lookup,
the validator performs the list-element check first and the group-membership
check second, so the list elements' diagnostics appear in the returned sequence
before any diagnostic about the group operator. -/
theorem C2_amended_list_check_first (vars : VarTable) (fieldLookup : FieldLookup)
    (cond : Condition) (f : Field) (entry : IComparisonType) (vl : ValueList)
    (inOp : OpToken) (gds ads : List Decoration)
    (hf : cond.field = some f)
    (hl : lookupGet fieldLookup (toLocaleLowerCase f.text) = some (some entry))
    (hno : cond.conditionalOperator = none ∨ cond.value = none)
    (hvl : cond.valueList = some vl)
    (hin : cond.inOperator = some inOp)
    (hg : checkRhsGroup vars vl entry.fieldType = some gds)
    (ha : checkAllowsGroup fieldLookup inOp f = some ads) :
    check vars fieldLookup [cond] = some (gds ++ ads) := by
  have hc : checkCondition vars fieldLookup cond = some (gds ++ ads) := by
    rcases hno with hno | hno
    · simp only [checkCondition, hf, hl, hno, hvl, hin, hg, ha]
    · cases hop : cond.conditionalOperator <;>
        simp only [checkCondition, hf, hl, hop, hno, hvl, hin, hg, ha]
  simp [check, hc]

/-- C2 witness: the concrete group condition of the counterexample instantiates
the amended ordering. -/
theorem C2_witness :
    check [] (getFieldComparisonLookup [⟨"t", "r", FieldType.TreePath⟩])
      [⟨some ⟨"t", 0⟩, none, none, some (ValueList.mk ⟨ValueAtom.Field "y" 1⟩ none),
        some ⟨Sym.InGroup, 2⟩⟩] =
      some ([⟨1, "Values in list must be literals"⟩] ++ [⟨2, "Valid comparisons are IN"⟩]) := by
  exact C2_amended_list_check_first []
    (getFieldComparisonLookup [⟨"t", "r", FieldType.TreePath⟩])
    ⟨some ⟨"t", 0⟩, none, none, some (ValueList.mk ⟨ValueAtom.Field "y" 1⟩ none),
      some ⟨Sym.InGroup, 2⟩⟩
    ⟨"t", 0⟩ ⟨FieldType.TreePath, [Sym.Equals, Sym.NotEquals, Sym.Under], [], [Sym.In]⟩
    (ValueList.mk ⟨ValueAtom.Field "y" 1⟩ none) ⟨Sym.InGroup, 2⟩
    [⟨1, "Values in list must be literals"⟩] [⟨2, "Valid comparisons are IN"⟩]
    rfl (by decide) (Or.inl rfl) rfl rfl (by decide) (by decide)

/-- C1 counterexample: an Integer field compared with Contains against a field
reference gets the "Valid comparisons are …" diagnostic, not the
"no valid operation" diagnostic the claim names, because the field-operator set
for Integer is non-empty. -/
theorem C1_counterexample :
    check [] (getFieldComparisonLookup [⟨"a", "r", FieldType.Integer⟩])
      [⟨some ⟨"a", 0⟩, some ⟨Sym.Contains, 1⟩, some ⟨ValueAtom.Field "a" 2⟩, none, none⟩] =
      some [⟨1,
        "Valid comparisons are EQUALS, NOTEQUALS, GREATERTHAN, LESSTHAN, GREATEROREQ, LESSOREQ"⟩] ∧
    "Valid comparisons are EQUALS, NOTEQUALS, GREATERTHAN, LESSTHAN, GREATEROREQ, LESSOREQ" ≠
      "There is no valid operation for a and field" := by
  constructor
  · decide
  · decide

/-- C1 amended: for a field of declared type Integer, Double, DateTime or Guid,
a scalar condition whose right-hand side is a field reference and whose
operator is Contains gets the "Valid comparisons are …" diagnostic listing the
six relational operators: the field-operator set for those types is non-empty
but excludes Contains, so the empty-set "no valid operation" diagnostic is not
the one emitted. -/
theorem C1_amended_valid_comparisons (t : FieldType) (name ref : String) (fs cs : Nat)
    (ht : t = FieldType.Integer ∨ t = FieldType.Double ∨ t = FieldType.DateTime ∨
      t = FieldType.Guid)
    (href : ref ≠ "System.Links.LinkType") :
    checkComparisonOperator (getFieldComparisonLookup [⟨name, ref, t⟩]) ⟨Sym.Contains, cs⟩
      ⟨name, fs⟩ RhsKind.field =
      some [⟨cs,
        "Valid comparisons are EQUALS, NOTEQUALS, GREATERTHAN, LESSTHAN, GREATEROREQ, LESSOREQ"⟩] := by
  rcases ht with rfl | rfl | rfl | rfl <;>
    simp [checkComparisonOperator, getFieldComparisonLookup, addFieldToLookup, href,
      lookupSet, lookupGet, compTypes, opsFor, getSymbolName, toDecoration] <;>
    decide

/-- C1 witness: a concrete DateTime field instantiates the amended claim. -/
theorem C1_witness :
    checkComparisonOperator (getFieldComparisonLookup [⟨"a", "r", FieldType.DateTime⟩])
      ⟨Sym.Contains, 1⟩ ⟨"a", 0⟩ RhsKind.field =
      some [⟨1,
        "Valid comparisons are EQUALS, NOTEQUALS, GREATERTHAN, LESSTHAN, GREATEROREQ, LESSOREQ"⟩] :=
  C1_amended_valid_comparisons FieldType.DateTime "a" "r" 0 1
    (Or.inr (Or.inr (Or.inl rfl))) (by decide)

/-- Assigning under a different key leaves a lookup read unchanged. -/
theorem lookupGet_lookupSet_ne (m : FieldLookup) (k k2 : String)
    (v : Option IComparisonType) (h : k2 ≠ k) :
    lookupGet (lookupSet m k2 v) k = lookupGet m k := by
  simp [lookupSet, lookupGet, h]

/-- Folding fields none of whose lowercased names or reference names equal the
key leaves the read at that key unchanged. -/
theorem lookupGet_foldl_untouched (l : List WorkItemField) (m : FieldLookup) (k : String)
    (h : ∀ g ∈ l, toLocaleLowerCase g.name ≠ k ∧ toLocaleLowerCase g.referenceName ≠ k) :
    lookupGet (l.foldl addFieldToLookup m) k = lookupGet m k := by
  induction l generalizing m with
  | nil => rfl
  | cons g rest ih =>
    have hg := h g (List.mem_cons_self g rest)
    have hrest : ∀ x ∈ rest, toLocaleLowerCase x.name ≠ k ∧
        toLocaleLowerCase x.referenceName ≠ k :=
      fun x hx => h x (List.mem_cons_of_mem g hx)
    rw [List.foldl_cons, ih _ hrest]
    unfold addFieldToLookup
    split
    · rw [lookupGet_lookupSet_ne _ _ _ _ hg.1, lookupGet_lookupSet_ne _ _ _ _ hg.2]
    · rw [lookupGet_lookupSet_ne _ _ _ _ hg.1, lookupGet_lookupSet_ne _ _ _ _ hg.2]

/-- C5 counterexample: a field list containing the link-type sentinel field
followed by a colliding ordinary field maps the sentinel field's lowercased
display name to the ordinary Integer entry, not to the hard-coded link-type
entry, so the claim fails for this input list. -/
theorem C5_counterexample :
    lookupGet (getFieldComparisonLookup
      [⟨"A", "System.Links.LinkType", FieldType.String⟩, ⟨"A", "B", FieldType.Integer⟩])
      "a" = some (compTypes FieldType.Integer) ∧
    some (compTypes FieldType.Integer) ≠
      some (some linkTypeEntry) := by
  constructor
  · decide
  · decide

/-- C5 amended: for a field list containing the link-type sentinel field, when
no later field's lowercased display or reference name collides with the
sentinel field's lowercased display or reference name, the built lookup maps
both of those keys to the hard-coded entry with field type String, literal
operators exactly Equals and NotEquals, an empty field-operator set and an
empty group-operator set, regardless of the generic table entry for String. -/
theorem C5_amended_link_type_lookup (fs1 fs2 : List WorkItemField) (f : WorkItemField)
    (hf : f.referenceName = "System.Links.LinkType")
    (h2 : ∀ g ∈ fs2,
      (toLocaleLowerCase g.name ≠ toLocaleLowerCase f.name ∧
       toLocaleLowerCase g.referenceName ≠ toLocaleLowerCase f.name) ∧
      (toLocaleLowerCase g.name ≠ toLocaleLowerCase f.referenceName ∧
       toLocaleLowerCase g.referenceName ≠ toLocaleLowerCase f.referenceName)) :
    lookupGet (getFieldComparisonLookup (fs1 ++ f :: fs2)) (toLocaleLowerCase f.name) =
      some (some linkTypeEntry) ∧
    lookupGet (getFieldComparisonLookup (fs1 ++ f :: fs2)) (toLocaleLowerCase f.referenceName) =
      some (some linkTypeEntry) := by
  unfold getFieldComparisonLookup
  rw [List.foldl_append, List.foldl_cons]
  constructor
  · rw [lookupGet_foldl_untouched fs2 _ _ (fun g hg => (h2 g hg).1)]
    simp [addFieldToLookup, hf, lookupSet, lookupGet]
  · rw [lookupGet_foldl_untouched fs2 _ _ (fun g hg => (h2 g hg).2)]
    by_cases hc : toLocaleLowerCase f.name = toLocaleLowerCase f.referenceName <;>
      simp [addFieldToLookup, hf, lookupSet, lookupGet, hc]

/-- C5 witness: a concrete field list with the sentinel field and one
non-colliding later field instantiates the amended claim. -/
theorem C5_witness :
    lookupGet (getFieldComparisonLookup
      [⟨"Link Type", "System.Links.LinkType", FieldType.String⟩,
       ⟨"Other", "My.Other", FieldType.Integer⟩])
      (toLocaleLowerCase "Link Type") = some (some linkTypeEntry) ∧
    lookupGet (getFieldComparisonLookup
      [⟨"Link Type", "System.Links.LinkType", FieldType.String⟩,
       ⟨"Other", "My.Other", FieldType.Integer⟩])
      (toLocaleLowerCase "System.Links.LinkType") = some (some linkTypeEntry) :=
  C5_amended_link_type_lookup []
    [⟨"Other", "My.Other", FieldType.Integer⟩]
    ⟨"Link Type", "System.Links.LinkType", FieldType.String⟩
    rfl (by decide)

/-- C6: includeVariables appends variable suggestions exactly when the expected
token set contains the variable grammar symbol and the previous token is not a
group symbol; the appended suggestions are the declared variables whose type
equals the context's field type when the cursor is inside a condition, and all
declared variables when it is not. -/
theorem C6_includeVariables_spec (vars : VarTable) (ctx : CompletionContext)
    (suggestions : List CompletionItem) :
    ((ctx.parseNext.expectedTokens.contains (getSymbolName Sym.Variable)
        && !prevTokenInstanceOf ctx.prevToken Sym.Group) = false →
      includeVariables vars ctx suggestions = suggestions) ∧
    (∀ t, (ctx.parseNext.expectedTokens.contains (getSymbolName Sym.Variable)
        && !prevTokenInstanceOf ctx.prevToken Sym.Group) = true →
      ctx.isInCondition = true → ctx.fieldType = some t →
      includeVariables vars ctx suggestions =
        suggestions ++ (vars.filter (fun p => p.2 == t)).map
          (fun p => (⟨p.1, none⟩ : CompletionItem))) ∧
    ((ctx.parseNext.expectedTokens.contains (getSymbolName Sym.Variable)
        && !prevTokenInstanceOf ctx.prevToken Sym.Group) = true →
      ctx.isInCondition = false →
      includeVariables vars ctx suggestions =
        suggestions ++ vars.map (fun p => (⟨p.1, none⟩ : CompletionItem))) := by
  refine ⟨?_, ?_, ?_⟩
  · intro h
    unfold includeVariables
    rw [h]
    simp
  · intro t h hin hft
    unfold includeVariables
    rw [h, hin, hft]
    simp [getStandardVariableSuggestions]
  · intro h hin
    unfold includeVariables
    rw [h, hin]
    simp [getStandardVariableSuggestions]

/-- C6 witness: with a variable expected and no preceding group token, inside a
condition on a DateTime field only the DateTime variable is appended, and with
the variable symbol not expected the suggestion list is unchanged. -/
theorem C6_witness :
    includeVariables [("@me", FieldType.String), ("@today", FieldType.DateTime)]
      ⟨⟨["VARIABLE"]⟩, none, true, some FieldType.DateTime⟩ [] =
      [(⟨"@today", none⟩ : CompletionItem)] ∧
    includeVariables [("@me", FieldType.String), ("@today", FieldType.DateTime)]
      ⟨⟨["FIELD"]⟩, none, false, none⟩ [(⟨"x", none⟩ : CompletionItem)] =
      [(⟨"x", none⟩ : CompletionItem)] := by
  constructor
  · exact (C6_includeVariables_spec [("@me", FieldType.String), ("@today", FieldType.DateTime)]
      ⟨⟨["VARIABLE"]⟩, none, true, some FieldType.DateTime⟩ []).2.1
      FieldType.DateTime (by decide) rfl rfl
  · exact (C6_includeVariables_spec [("@me", FieldType.String), ("@today", FieldType.DateTime)]
      ⟨⟨["FIELD"]⟩, none, false, none⟩ [(⟨"x", none⟩ : CompletionItem)]).1 (by decide)

/-- C7: getCurrentVariableSuggestions returns a non-null list exactly when the
token before the cursor is a variable token and the cursor column sits at its
end; each returned suggestion's label is a declared variable name with its
sentinel intact while the insertion text is that label with the sentinel
stripped; in every other case the explicit null signal is returned. -/
theorem C7_getCurrentVariableSuggestions_spec (vars : VarTable) (ctx : CompletionContext)
    (pos : Position) :
    (getCurrentVariableSuggestions vars ctx pos ≠ none ↔
      ∃ t, ctx.prevToken = some t ∧ t.kind = Sym.Variable ∧
        pos.column - 1 = t.endColumn) ∧
    (∀ l, getCurrentVariableSuggestions vars ctx pos = some l →
      ∀ s ∈ l, s.label ∈ vars.map Prod.fst ∧
        s.insertText = some (stripVariableSentinel s.label)) := by
  constructor
  · cases hpt : ctx.prevToken with
    | none => simp [getCurrentVariableSuggestions, hpt]
    | some t =>
      by_cases hk : t.kind = Sym.Variable
      · by_cases hc : pos.column - 1 = t.endColumn
        · simp [getCurrentVariableSuggestions, hpt, hk, hc]
        · simp [getCurrentVariableSuggestions, hpt, hk, hc]
      · simp [getCurrentVariableSuggestions, hpt, hk]
  · intro l hl s hs
    cases hpt : ctx.prevToken with
    | none => simp [getCurrentVariableSuggestions, hpt] at hl
    | some t =>
      simp only [getCurrentVariableSuggestions, hpt] at hl
      split at hl
      · cases hl
        rcases List.mem_map.mp hs with ⟨s0, hs0, rfl⟩
        simp only [getStandardVariableSuggestions] at hs0
        rcases List.mem_map.mp hs0 with ⟨p, hp, rfl⟩
        exact ⟨List.mem_map.mpr ⟨p, List.mem_of_mem_filter hp, rfl⟩, rfl⟩
      · cases hl

/-- C7 witness: mid-typing a variable with the cursor at the token end, a
suggestion is produced whose label keeps the sentinel and whose insertion text
drops it; the concrete result evaluates accordingly. -/
theorem C7_witness :
    getCurrentVariableSuggestions [("@me", FieldType.String), ("@today", FieldType.DateTime)]
      ⟨⟨["VARIABLE"]⟩, some ⟨Sym.Variable, 5⟩, true, some FieldType.DateTime⟩ ⟨6⟩ ≠ none ∧
    (∀ s ∈ [(⟨"@today", some "today"⟩ : CompletionItem)],
      s.label ∈ [("@me", FieldType.String), ("@today", FieldType.DateTime)].map Prod.fst ∧
        s.insertText = some (stripVariableSentinel s.label)) := by
  constructor
  · exact (C7_getCurrentVariableSuggestions_spec
      [("@me", FieldType.String), ("@today", FieldType.DateTime)]
      ⟨⟨["VARIABLE"]⟩, some ⟨Sym.Variable, 5⟩, true, some FieldType.DateTime⟩ ⟨6⟩).1.mpr
      ⟨⟨Sym.Variable, 5⟩, rfl, rfl, by decide⟩
  · exact (C7_getCurrentVariableSuggestions_spec
      [("@me", FieldType.String), ("@today", FieldType.DateTime)]
      ⟨⟨["VARIABLE"]⟩, some ⟨Sym.Variable, 5⟩, true, some FieldType.DateTime⟩ ⟨6⟩).2
      [(⟨"@today", some "today"⟩ : CompletionItem)] (by decide)

end Wiql
